import Mathlib

/-!
# Verification of the EIOPA monitoring core

A shallow embedding of the historical time-series store and comparison
engine of the EIOPA monitoring repository (`analyzer.py`, `utils.py`,
`config.py`), together with theorems settling the frozen claims about it.

Modelling conventions:
* Calendar dates are a `year/month/day` structure; pandas `Timestamp`
  comparison and day arithmetic are modelled through `toDay`, the standard
  days-from-civil conversion to a day number.
* Python floats carrying rates are modelled as exact rationals (`ℚ`);
  where a claim is specifically about IEEE-754 exactness, a faithful
  binary64 rounding model over `ℚ` (`roundDouble`) is used instead.
* A pandas `DataFrame` is a `Frame`: a list of column names plus a list of
  rows; a missing cell and a `NaN` cell are both `Option.none` (matching the
  `pd.notna` guards in every read path of the source).
* `dict`s are association lists preserving insertion order, as Python
  dicts do.
* Python code that raises is modelled with `Option`/`Except` results;
  a `try/except` block that swallows the exception is modelled by the
  function returning normally on every input.
-/

/-! ## Calendar dates -/

structure Date where
  year : Int
  month : Nat
  day : Nat
deriving DecidableEq, Repr

def isLeap (y : Int) : Bool :=
  (y % 4 == 0 && y % 100 != 0) || (y % 400 == 0)

def daysInMonth (y : Int) (m : Nat) : Nat :=
  if m = 2 then (if isLeap y then 29 else 28)
  else if m = 4 ∨ m = 6 ∨ m = 9 ∨ m = 11 then 30
  else 31

/-- Day number of a calendar date (days since 1970-01-01, the standard
days-from-civil algorithm).  Models the day arithmetic pandas performs on
`Timestamp`s: differences of `toDay` values are differences in days. -/
def toDay (d : Date) : Int :=
  let y : Int := if d.month ≤ 2 then d.year - 1 else d.year
  let era : Int := y / 400
  let yoe : Int := y - era * 400
  let mp : Int := (Int.ofNat d.month + 9) % 12
  let doy : Int := (153 * mp + 2) / 5 + Int.ofNat d.day - 1
  let doe : Int := yoe * 365 + yoe / 4 - yoe / 100 + doy
  era * 146097 + doe - 719468

/-! ## Configuration (`config.py`) -/

def TARGET_MATURITIES : List Nat := [1, 5, 10, 20, 30]

def ALERT_THRESHOLD_MOM : ℚ := 50

def ALERT_THRESHOLD_YTD : ℚ := 100

/-! ## Date anchor functions (`utils.py`) -/

/-- `get_previous_month_date`: `reference_date.replace(day=1) - timedelta(days=1)`,
the last day of the month preceding the reference date's month. -/
def get_previous_month_date (d : Date) : Date :=
  if d.month = 1 then ⟨d.year - 1, 12, 31⟩
  else ⟨d.year, d.month - 1, daysInMonth d.year (d.month - 1)⟩

/-- `get_year_start_date`: January 1 of the reference date's year. -/
def get_year_start_date (d : Date) : Date :=
  ⟨d.year, 1, 1⟩

/-- `calculate_bps_change`: `(new_rate - old_rate) * 10000`, over the exact
rational model of the source's float arithmetic. -/
def calculate_bps_change (old_rate new_rate : ℚ) : ℚ :=
  (new_rate - old_rate) * 10000

/-! ## Data model

`ObsData` is the dict produced by `processor.process()` and consumed by
`add_to_historical` / `analyze`: reference date, country, a maturity→rate
dict and an optional volatility adjustment (the unused `source_file` key is
omitted).  `Obs` is the identically shaped dict rebuilt by the read paths
of `analyzer.py`. -/

structure ObsData where
  reference_date : Date
  country : String
  rates : List (Nat × ℚ)
  va : Option ℚ
deriving DecidableEq, Repr

structure Obs where
  reference_date : Date
  country : String
  rates : List (Nat × ℚ)
  va : Option ℚ
deriving DecidableEq, Repr

/-- One row of the historical `DataFrame`.  `rates` holds the `rate_{m}y`
cells keyed by maturity; a maturity with no pair, or one paired with
`none`, is a missing/`NaN` cell.  `meta` holds the descriptive columns
(`llp`, `alpha`, ...) that the analysis code never reads. -/
structure Row where
  reference_date : Date
  country : String
  rates : List (Nat × Option ℚ)
  va : Option ℚ
  meta : List (String × Option ℚ)
deriving DecidableEq, Repr

/-- A pandas `DataFrame` holding historical rows: column names plus rows. -/
structure Frame where
  columns : List String
  rows : List Row
deriving DecidableEq, Repr

def rateCol (m : Nat) : String := "rate_" ++ toString m ++ "y"

/-- The column schema `_load_historical` creates for a fresh store. -/
def expectedColumns : List String :=
  ["reference_date", "country"] ++ TARGET_MATURITIES.map rateCol ++
    ["va", "llp", "alpha", "ufr", "cra", "convergence", "coupon_freq"]

/-- The columns of the row dict built inside `add_to_historical`. -/
def rowKeys : List String :=
  ["reference_date", "country"] ++ TARGET_MATURITIES.map rateCol ++ ["va"]

/-! ## Cell access -/

/-- Read a `rate_{m}y` cell of a row: `none` when the column is absent from
the row or holds `NaN` (the source guards every read with
`col_name in row and pd.notna(row[col_name])`). -/
def lookupCell (cells : List (Nat × Option ℚ)) (m : Nat) : Option ℚ :=
  match cells with
  | [] => none
  | c :: rest => if c.1 = m then c.2 else lookupCell rest m

/-- Assign a cell, models `row[col] = value` / `.loc[mask, col] = value`:
overwrite in place when the column exists, append it otherwise. -/
def setCell (cells : List (Nat × Option ℚ)) (m : Nat) (v : Option ℚ) :
    List (Nat × Option ℚ) :=
  match cells with
  | [] => [(m, v)]
  | c :: rest => if c.1 = m then (m, v) :: rest else c :: setCell rest m v

/-! ## Historical store (`EIOPAAnalyzer`) -/

/-- Ordering of rows by reference date, the sort key of
`sort_values('reference_date')`. -/
def rowLe (a b : Row) : Prop :=
  toDay a.reference_date ≤ toDay b.reference_date

instance : DecidableRel rowLe := fun _a _b =>
  inferInstanceAs (Decidable (_ ≤ _))

instance : IsTotal Row rowLe :=
  ⟨fun a b => le_total (toDay a.reference_date) (toDay b.reference_date)⟩

instance : IsTrans Row rowLe :=
  ⟨fun _ _ _ h h' => le_trans h h'⟩

/-- `self.historical_data.sort_values('reference_date')`. -/
def sortRows (l : List Row) : List Row :=
  List.insertionSort rowLe l

/-- The key test of `add_to_historical`:
`(reference_date == data['reference_date']) & (country == data['country'])`
(pandas timestamp equality, i.e. equality of day numbers). -/
def keyMatch (d : ObsData) (r : Row) : Bool :=
  (toDay r.reference_date == toDay d.reference_date) && (r.country == d.country)

/-- The row dict built at the top of `add_to_historical`: reference date,
country, one `rate_{m}y` cell per target maturity (`data['rates'].get(m)`),
and `va` (`data.get('va')`).  A brand-new row carries no metadata cells. -/
def newRow (d : ObsData) : Row :=
  { reference_date := d.reference_date
    country := d.country
    rates := TARGET_MATURITIES.map (fun m => (m, d.rates.lookup m))
    va := d.va
    meta := [] }

/-- The update branch of `add_to_historical`: assign every column of the
row dict onto the matched row (`self.historical_data.loc[mask, col] = value`),
leaving the metadata columns untouched. -/
def updateRow (d : ObsData) (r : Row) : Row :=
  { r with
    reference_date := d.reference_date
    country := d.country
    rates := TARGET_MATURITIES.foldl
      (fun cells m => setCell cells m (d.rates.lookup m)) r.rates
    va := d.va }

/-- `pd.concat` unions column sets, appending the new columns. -/
def unionCols (a b : List String) : List String :=
  a ++ b.filter (fun c => !(a.contains c))

/-- The in-memory mutation performed by `add_to_historical`:
if the store is empty, replace it by a one-row frame; else if the key
matches an existing row, overwrite every row-dict column of the matching
rows; else append a new row.  Afterwards sort by `reference_date`. -/
def upsertFrame (frame : Frame) (d : ObsData) : Frame :=
  let base : Frame :=
    if frame.rows.isEmpty then
      { columns := rowKeys, rows := [newRow d] }
    else if frame.rows.any (keyMatch d) then
      { columns := unionCols frame.columns rowKeys
        rows := frame.rows.map (fun r => if keyMatch d r then updateRow d r else r) }
    else
      { columns := unionCols frame.columns rowKeys
        rows := frame.rows ++ [newRow d] }
  { base with rows := sortRows base.rows }

/-- The observation dict the read paths of `analyzer.py` rebuild from a
row: rates over the target maturities whose cell is present and non-`NaN`,
plus the `va` cell. -/
def obsOfRow (r : Row) : Obs :=
  { reference_date := r.reference_date
    country := r.country
    rates := TARGET_MATURITIES.filterMap
      (fun m => (lookupCell r.rates m).map (fun v => (m, v)))
    va := r.va }

/-- `get_historical_data`: exact-match lookup by country and date. -/
def get_historical_data (frame : Frame) (country : String) (target_date : Date) :
    Option Obs :=
  if frame.rows.isEmpty then none
  else
    match frame.rows.filter (fun r =>
        (r.country == country) && (toDay r.reference_date == toDay target_date)) with
    | [] => none
    | r :: _ => some (obsOfRow r)

/-! ## Persistence (`_load_historical` / `save_historical`) -/

/-- The state of the backing CSV file as the process finds it. -/
inductive BackingFile
  | missing
  | readable (f : Frame)
  | corrupt
deriving DecidableEq

/-- The spec's error taxonomy for the load path. -/
inductive StorageReadError
  | readError
deriving DecidableEq, Repr

/-- The spec's error taxonomy for the save path. -/
inductive StorageWriteError
  | writeError
deriving DecidableEq, Repr

/-- Whether the `to_csv` call inside `save_historical` succeeds or raises. -/
inductive WriteOutcome
  | ok
  | ioError
deriving DecidableEq, Repr

/-- `_load_historical`: a missing file yields an empty frame with the
expected schema; a readable file yields its contents; an unparsable file
is caught by the `except` block, logged, and an empty schemaless
`pd.DataFrame()` is returned — no branch produces an error. -/
def load_historical : BackingFile → Except StorageReadError Frame
  | BackingFile.missing => Except.ok { columns := expectedColumns, rows := [] }
  | BackingFile.readable f => Except.ok f
  | BackingFile.corrupt => Except.ok { columns := [], rows := [] }

/-- `save_historical`: `to_csv` inside `try/except`; a raised exception is
logged and swallowed, so the caller never observes an error. -/
def save_historical (_frame : Frame) : WriteOutcome → Except StorageWriteError Unit
  | WriteOutcome.ok => Except.ok ()
  | WriteOutcome.ioError => Except.ok ()

/-- `add_to_historical`: perform the in-memory upsert, then persist.
Returns the new in-memory frame together with what the caller observes
from the save. -/
def add_to_historical (frame : Frame) (d : ObsData) (w : WriteOutcome) :
    Frame × Except StorageWriteError Unit :=
  let f := upsertFrame frame d
  (f, save_historical f w)

/-! ## Anchor lookup (`get_previous_month_data` / `get_ytd_data`) -/

/-- Models `candidates.sort_values('diff').iloc[0]` on the small candidate
frames of the anchor lookups: the first row attaining the minimal key
(the head of a stable sort by the key is exactly the first minimizer). -/
def firstMinBy {α : Type} (key : α → Int) : List α → Option α
  | [] => none
  | [r] => some r
  | r :: s :: rest =>
    match firstMinBy key (s :: rest) with
    | none => some r
    | some b => some (if key b < key r then b else r)

/-- The shared body of `get_previous_month_data` and `get_ytd_data`
(identical in the source up to the anchor date and tolerance): filter the
store to rows of the country whose date lies within `tol` days of the
anchor, return `none` when no row matches, else the candidate closest to
the anchor. -/
def anchorLookup (frame : Frame) (country : String) (target : Int) (tol : Int) :
    Option Obs :=
  if frame.rows.isEmpty then none
  else
    match firstMinBy (fun r => |toDay r.reference_date - target|)
        (frame.rows.filter (fun r =>
          (r.country == country)
            && decide (target - tol ≤ toDay r.reference_date)
            && decide (toDay r.reference_date ≤ target + tol))) with
    | none => none
    | some r => some (obsOfRow r)

/-- `get_previous_month_data`: closest record of the country within ±5
days of the previous month-end. -/
def get_previous_month_data (frame : Frame) (current_date : Date)
    (country : String) : Option Obs :=
  anchorLookup frame country (toDay (get_previous_month_date current_date)) 5

/-- `get_ytd_data`: closest record of the country within ±10 days of the
year start. -/
def get_ytd_data (frame : Frame) (current_date : Date) (country : String) :
    Option Obs :=
  anchorLookup frame country (toDay (get_year_start_date current_date)) 10

/-! ## Time-series query (`get_time_series`) -/

/-- Ordering of `(date, rate)` pairs by date. -/
def pairLe (a b : Date × ℚ) : Prop :=
  toDay a.1 ≤ toDay b.1

instance : DecidableRel pairLe := fun _a _b =>
  inferInstanceAs (Decidable (_ ≤ _))

instance : IsTotal (Date × ℚ) pairLe :=
  ⟨fun a b => le_total (toDay a.1) (toDay b.1)⟩

instance : IsTrans (Date × ℚ) pairLe :=
  ⟨fun _ _ _ h h' => le_trans h h'⟩

/-- `if start_date: df = df[df['reference_date'] >= start_date]`. -/
def applyStartFilter (start_date : Option Date) (df : List Row) : List Row :=
  match start_date with
  | some sd => df.filter (fun r => decide (toDay sd ≤ toDay r.reference_date))
  | none => df

/-- `if end_date: df = df[df['reference_date'] <= end_date]`. -/
def applyEndFilter (end_date : Option Date) (df : List Row) : List Row :=
  match end_date with
  | some ed => df.filter (fun r => decide (toDay r.reference_date ≤ toDay ed))
  | none => df

/-- `get_time_series`: empty result on an empty store or a missing
`rate_{m}y` column; otherwise filter by country and optional date bounds,
keep the `(reference_date, rate)` pairs whose rate is not `NaN`
(`dropna`), and sort by date. -/
def get_time_series (frame : Frame) (country : String) (maturity : Nat)
    (start_date end_date : Option Date) : List (Date × ℚ) :=
  if frame.rows.isEmpty then []
  else if !(frame.columns.contains (rateCol maturity)) then []
  else
    List.insertionSort pairLe
      ((applyEndFilter end_date (applyStartFilter start_date
          (frame.rows.filter (fun r => r.country == country)))).filterMap
        (fun r => (lookupCell r.rates maturity).map
          (fun v => (r.reference_date, v))))

/-! ## Comparator and alert engine (`create_summary_dict`, `_detect_alerts`,
`analyze`) -/

/-- Keys of the `changes_mom` / `changes_ytd` dicts: the rate maturities
plus the synthetic `va` key. -/
inductive CKey
  | mat (m : Nat)
  | va
deriving DecidableEq, Repr

inductive Period
  | mom
  | ytd
deriving DecidableEq, Repr

inductive Direction
  | hausse
  | baisse
deriving DecidableEq, Repr

/-- An alert message of `_detect_alerts`, abstracting the French format
string `"⚠️ Variation {period} importante ({maturity}Y): {direction} de
{bps}"` to its structured content. -/
structure Alert where
  period : Period
  maturity : Nat
  direction : Direction
deriving DecidableEq, Repr

/-- One comparison block of `create_summary_dict` (the month-over-month
and year-to-date blocks are identical in the source up to the anchor
arguments).  Skipped entirely when the anchor rates dict is `None` or
empty (`if previous_rates:`); per-maturity deltas for the current
maturities present on the anchor side; then, when the anchor VA is
present, `calculate_bps_change(anchor_va, va)` — which raises a
`TypeError` when the current `va` is `None` (modelled as `none`).
`ratesDeltas` gives the per-maturity delta entries: one entry per current
maturity also present on the anchor side (`for maturity in rates: if
maturity in previous_rates`), in the current dict's order. -/
def ratesDeltas (rates prev : List (Nat × ℚ)) : List (CKey × ℚ) :=
  rates.filterMap (fun p =>
    (prev.lookup p.1).map
      (fun pv => (CKey.mat p.1, calculate_bps_change pv p.2)))

def changesBlock (rates : List (Nat × ℚ)) (va : Option ℚ)
    (anchor_rates : Option (List (Nat × ℚ))) (anchor_va : Option ℚ) :
    Option (List (CKey × ℚ)) :=
  match anchor_rates with
  | none => some []
  | some prev =>
    if prev.isEmpty then some []
    else
      match anchor_va with
      | none => some (ratesDeltas rates prev)
      | some pva =>
        match va with
        | some v => some (ratesDeltas rates prev ++
            [(CKey.va, calculate_bps_change pva v)])
        | none => none

/-- The analysis summary dict. -/
structure Summary where
  reference_date : Date
  country : String
  rates : List (Nat × ℚ)
  va : Option ℚ
  changes_mom : List (CKey × ℚ)
  changes_ytd : List (CKey × ℚ)
  previous_date : Option Date
  ytd_date : Option Date
  alerts : List Alert
deriving DecidableEq, Repr

/-- `create_summary_dict` (`utils.py`): the base summary with both change
dicts; `none` models the `TypeError` raised when a VA delta is demanded
while the current `va` is `None`.  The keys `analyze` fills in later start
out empty. -/
def create_summary_dict (reference_date : Date) (country : String)
    (rates : List (Nat × ℚ)) (va : Option ℚ)
    (previous_rates : Option (List (Nat × ℚ))) (previous_va : Option ℚ)
    (ytd_rates : Option (List (Nat × ℚ))) (ytd_va : Option ℚ) :
    Option Summary := do
  let cm ← changesBlock rates va previous_rates previous_va
  let cy ← changesBlock rates va ytd_rates ytd_va
  pure { reference_date := reference_date
         country := country
         rates := rates
         va := va
         changes_mom := cm
         changes_ytd := cy
         previous_date := none
         ytd_date := none
         alerts := [] }

/-- The month-over-month loop of `_detect_alerts`: skip the `va` key; alert
when `abs(change_bps) >= ALERT_THRESHOLD_MOM`, direction by the sign. -/
def momScan (changes_mom : List (CKey × ℚ)) : List Alert :=
  changes_mom.filterMap (fun kc =>
    match kc.1 with
    | CKey.va => none
    | CKey.mat m =>
      if ALERT_THRESHOLD_MOM ≤ |kc.2| then
        some { period := Period.mom, maturity := m,
               direction := if 0 < kc.2 then Direction.hausse else Direction.baisse }
      else none)

/-- The year-to-date loop of `_detect_alerts`, against `ALERT_THRESHOLD_YTD`. -/
def ytdScan (changes_ytd : List (CKey × ℚ)) : List Alert :=
  changes_ytd.filterMap (fun kc =>
    match kc.1 with
    | CKey.va => none
    | CKey.mat m =>
      if ALERT_THRESHOLD_YTD ≤ |kc.2| then
        some { period := Period.ytd, maturity := m,
               direction := if 0 < kc.2 then Direction.hausse else Direction.baisse }
      else none)

/-- `_detect_alerts`: the month-over-month loop then the year-to-date loop,
appending into one list. -/
def detect_alerts (changes_mom changes_ytd : List (CKey × ℚ)) : List Alert :=
  momScan changes_mom ++ ytdScan changes_ytd

/-- `analyze`: resolve both anchors, build the summary, record the anchor
dates, detect alerts.  `none` propagates the `TypeError` of
`create_summary_dict`. -/
def analyze (frame : Frame) (current : ObsData) : Option Summary :=
  let previous_data := get_previous_month_data frame current.reference_date
    current.country
  let ytd_data := get_ytd_data frame current.reference_date current.country
  match create_summary_dict current.reference_date current.country
      current.rates current.va
      (previous_data.map (fun p => p.rates)) (previous_data.bind (fun p => p.va))
      (ytd_data.map (fun p => p.rates)) (ytd_data.bind (fun p => p.va)) with
  | none => none
  | some s =>
    let s2 : Summary := { s with
      previous_date := previous_data.map (fun p => p.reference_date)
      ytd_date := ytd_data.map (fun p => p.reference_date) }
    some { s2 with alerts := detect_alerts s2.changes_mom s2.changes_ytd }

/-! ## Binary64 model

The source computes rates in Python floats (IEEE-754 binary64).  Where a
claim is about exact float values, the following correctly-rounded model
over `ℚ` is used: `roundDouble q` is the binary64 value nearest to `q`
(round to nearest, ties to even; the inputs at issue are all in the normal
range, so overflow and subnormals do not arise). -/

/-- Round a rational to the nearest integer, ties to even. -/
def roundNearestEven (q : ℚ) : Int :=
  if q - ⌊q⌋ < 1/2 then ⌊q⌋
  else if 1/2 < q - ⌊q⌋ then ⌊q⌋ + 1
  else if ⌊q⌋ % 2 = 0 then ⌊q⌋ else ⌊q⌋ + 1

/-- The binary64 value nearest to `q`: round the 53-bit significand. -/
def roundDouble (q : ℚ) : ℚ :=
  if q = 0 then 0
  else if q < 0 then
    -((roundNearestEven (|q| * (2:ℚ) ^ (52 - Int.log 2 |q|)) : ℚ) *
      (2:ℚ) ^ (Int.log 2 |q| - 52))
  else
    (roundNearestEven (|q| * (2:ℚ) ^ (52 - Int.log 2 |q|)) : ℚ) *
      (2:ℚ) ^ (Int.log 2 |q| - 52)

/-- Binary64 subtraction: the exact difference, correctly rounded. -/
def dsub (a b : ℚ) : ℚ := roundDouble (a - b)

/-- Binary64 multiplication: the exact product, correctly rounded. -/
def dmul (a b : ℚ) : ℚ := roundDouble (a * b)

/-- `calculate_bps_change` under actual binary64 float semantics:
`(new_rate - old_rate) * 10000` with each operation correctly rounded. -/
def calculate_bps_change_fp (old_rate new_rate : ℚ) : ℚ :=
  dmul (dsub new_rate old_rate) 10000

/-! ## Well-formed observation records

Per the data model, an observation's rates dict has unique keys drawn from
the configured maturity set; `canonicalRates` is the canonical such dict
(keyed in configured order). -/

def canonicalRates (rates : List (Nat × ℚ)) : List (Nat × ℚ) :=
  TARGET_MATURITIES.filterMap (fun m => (rates.lookup m).map (fun v => (m, v)))

def wellFormedRates (d : ObsData) : Prop :=
  d.rates = canonicalRates d.rates

instance (d : ObsData) : Decidable (wellFormedRates d) :=
  inferInstanceAs (Decidable (_ = _))

/-! ## Concrete test data used by witnesses and counterexamples -/

def c1row : Row :=
  { reference_date := ⟨2024, 3, 31⟩, country := "FR"
    rates := [(1, some (28/1000)), (5, some (30/1000))]
    va := some (4/1000), meta := [("llp", some 20)] }

def c1frame : Frame := ⟨expectedColumns, [c1row]⟩

/-- A record sharing `c1row`'s key, with a different maturity-1 rate, no
maturity-5 rate, and no VA. -/
def c1data : ObsData :=
  { reference_date := ⟨2024, 3, 31⟩, country := "FR"
    rates := [(1, 35/1000)], va := none }

def c7frame : Frame := ⟨expectedColumns, []⟩

def c7data : ObsData :=
  { reference_date := ⟨2024, 4, 30⟩, country := "FR"
    rates := [(1, 31/1000)], va := none }

/-- Ordering of change-dict entries by maturity: rate-maturity entries must
appear in increasing maturity order; the `va` entry is unconstrained. -/
def keyLt (a b : CKey × ℚ) : Prop :=
  match a.1, b.1 with
  | CKey.mat ma, CKey.mat mb => ma < mb
  | _, _ => True

instance : DecidableRel keyLt := fun a b =>
  match a, b with
  | (CKey.mat _, _), (CKey.mat _, _) => inferInstanceAs (Decidable (_ < _))
  | (CKey.mat _, _), (CKey.va, _) => isTrue trivial
  | (CKey.va, _), (CKey.mat _, _) => isTrue trivial
  | (CKey.va, _), (CKey.va, _) => isTrue trivial

def c4mom : List (CKey × ℚ) := [(CKey.mat 1, 50), (CKey.mat 5, 49)]

def c4ytd : List (CKey × ℚ) := [(CKey.mat 1, 100), (CKey.mat 5, -99)]

def c5mom : List (CKey × ℚ) := [(CKey.mat 1, 60), (CKey.mat 10, -80), (CKey.va, 7)]

def c5ytd : List (CKey × ℚ) := [(CKey.mat 5, -120), (CKey.mat 20, 30)]

def c8frame : Frame := ⟨expectedColumns, []⟩

def c8d1 : ObsData :=
  { reference_date := ⟨2024, 3, 29⟩, country := "FR"
    rates := [(1, 29/1000)], va := none }

def c8d2 : ObsData :=
  { reference_date := ⟨2024, 1, 31⟩, country := "FR"
    rates := [(1, 27/1000)], va := none }

/-- The set of stored rows the claim says an anchor lookup considers: the
rows of the country whose reference date lies within `tol` days of the
anchor target. -/
def anchorWindow (frame : Frame) (country : String) (target tol : Int) :
    List Row :=
  frame.rows.filter (fun r => (r.country == country)
    && decide (|toDay r.reference_date - target| ≤ tol))

def demoRow1 : Row :=
  { reference_date := ⟨2024, 2, 22⟩, country := "FR"
    rates := [(1, some (27/1000))], va := none, meta := [] }

def demoRow2 : Row :=
  { reference_date := ⟨2024, 2, 26⟩, country := "FR"
    rates := [(1, some (28/1000))], va := none, meta := [] }

def demoRow3 : Row :=
  { reference_date := ⟨2024, 3, 3⟩, country := "FR"
    rates := [(1, some (29/1000))], va := none, meta := [] }

def demoRow4 : Row :=
  { reference_date := ⟨2024, 3, 6⟩, country := "FR"
    rates := [(1, some (30/1000))], va := none, meta := [] }

/-- Rows at T-7, T-3, T+3 and T+6 around the anchor T = 2024-02-29 (the
previous month-end of 2024-03-15). -/
def demoFrame : Frame :=
  ⟨expectedColumns, [demoRow1, demoRow2, demoRow3, demoRow4]⟩

/-- Anchor row for the C2 scenario: resolved month-end anchor carrying a
VA value. -/
def c2row : Row :=
  { reference_date := ⟨2024, 1, 31⟩, country := "FR"
    rates := [(1, some (28/1000))], va := some (5/1000), meta := [] }

def c2frame : Frame := ⟨expectedColumns, [c2row]⟩

/-- A current observation with no VA — exactly what `processor.process()`
always produces (`va = None`). -/
def c2current : ObsData :=
  { reference_date := ⟨2024, 2, 29⟩, country := "FR"
    rates := [(1, 29/1000)], va := none }

/-- The summary produced in the C2 witness scenario. -/
def c2s : Summary :=
  { reference_date := ⟨2024, 3, 31⟩, country := "FR"
    rates := [(1, 3/100)], va := some (6/1000)
    changes_mom := [(CKey.mat 1, calculate_bps_change (2/100) (3/100)),
      (CKey.va, calculate_bps_change (5/1000) (6/1000))]
    changes_ytd := []
    previous_date := none, ytd_date := none, alerts := [] }

/-! ## Lemmas about cells and rebuilt observations -/

theorem lookupCell_setCell_self (cells : List (Nat × Option ℚ)) (m : Nat)
    (v : Option ℚ) : lookupCell (setCell cells m v) m = v := by
  induction cells with
  | nil => simp [setCell, lookupCell]
  | cons c rest ih =>
    by_cases h : c.1 = m
    · simp [setCell, h, lookupCell]
    · simpa [setCell, h, lookupCell] using ih

theorem lookupCell_setCell_ne (cells : List (Nat × Option ℚ)) (m m' : Nat)
    (v : Option ℚ) (h : m' ≠ m) :
    lookupCell (setCell cells m v) m' = lookupCell cells m' := by
  induction cells with
  | nil => simp [setCell, lookupCell, Ne.symm h]
  | cons c rest ih =>
    by_cases hc : c.1 = m
    · subst hc
      simp [setCell, lookupCell, Ne.symm h, h]
    · by_cases hc' : c.1 = m'
      · simp [setCell, hc, lookupCell, hc', h]
      · simpa [setCell, hc, lookupCell, hc'] using ih

theorem lookupCell_updateRow (d : ObsData) (r : Row) (m : Nat)
    (hm : m ∈ TARGET_MATURITIES) :
    lookupCell (updateRow d r).rates m = d.rates.lookup m := by
  fin_cases hm <;>
    simp [updateRow, TARGET_MATURITIES, List.foldl,
      lookupCell_setCell_self, lookupCell_setCell_ne]

theorem lookupCell_newRow (d : ObsData) (m : Nat)
    (hm : m ∈ TARGET_MATURITIES) :
    lookupCell (newRow d).rates m = d.rates.lookup m := by
  fin_cases hm <;>
    simp [newRow, TARGET_MATURITIES, List.map, lookupCell]

theorem obsOfRow_updateRow (d : ObsData) (r : Row) :
    obsOfRow (updateRow d r) =
      ⟨d.reference_date, d.country, canonicalRates d.rates, d.va⟩ := by
  have h3 : TARGET_MATURITIES.filterMap
      (fun m => (lookupCell (updateRow d r).rates m).map (fun v => (m, v))) =
      canonicalRates d.rates :=
    List.filterMap_congr (fun m hm => by rw [lookupCell_updateRow d r m hm])
  simp only [obsOfRow, Obs.mk.injEq]
  exact ⟨rfl, rfl, h3, rfl⟩

theorem obsOfRow_newRow (d : ObsData) :
    obsOfRow (newRow d) =
      ⟨d.reference_date, d.country, canonicalRates d.rates, d.va⟩ := by
  have h3 : TARGET_MATURITIES.filterMap
      (fun m => (lookupCell (newRow d).rates m).map (fun v => (m, v))) =
      canonicalRates d.rates :=
    List.filterMap_congr (fun m hm => by rw [lookupCell_newRow d m hm])
  simp only [obsOfRow, Obs.mk.injEq]
  exact ⟨rfl, rfl, h3, rfl⟩

theorem keyMatch_updateRow (d : ObsData) (r : Row) :
    keyMatch d (updateRow d r) = true := by
  simp [keyMatch, updateRow]

theorem keyMatch_newRow (d : ObsData) : keyMatch d (newRow d) = true := by
  simp [keyMatch, newRow]

theorem mem_sortRows {r : Row} {l : List Row} : r ∈ sortRows l ↔ r ∈ l :=
  List.mem_insertionSort rowLe

/-- Every row of the upserted frame matching the key of `d` rebuilds to
exactly the observation carried by `d`. -/
theorem obsOfRow_of_mem_upsert (frame : Frame) (d : ObsData) (r : Row)
    (hr : r ∈ (upsertFrame frame d).rows) (hk : keyMatch d r = true) :
    obsOfRow r = ⟨d.reference_date, d.country, canonicalRates d.rates, d.va⟩ := by
  by_cases hE : frame.rows.isEmpty
  · simp only [upsertFrame, hE, if_true] at hr
    rw [mem_sortRows] at hr
    simp only [List.mem_singleton] at hr
    subst hr
    exact obsOfRow_newRow d
  · by_cases hA : frame.rows.any (keyMatch d)
    · simp only [upsertFrame, hE, hA, if_false, if_true, Bool.false_eq_true] at hr
      rw [mem_sortRows] at hr
      obtain ⟨x, hx, hfx⟩ := List.mem_map.mp hr
      by_cases hkx : keyMatch d x = true
      · rw [if_pos hkx] at hfx
        subst hfx
        exact obsOfRow_updateRow d x
      · rw [if_neg hkx] at hfx
        subst hfx
        exact absurd hk hkx
    · simp only [upsertFrame, hE, hA, if_false, Bool.false_eq_true] at hr
      rw [mem_sortRows] at hr
      rcases List.mem_append.mp hr with hx | hx
      · exact absurd hk (by
          intro hk'
          exact hA (List.any_eq_true.mpr ⟨r, hx, hk'⟩))
      · simp only [List.mem_singleton] at hx
        subst hx
        exact obsOfRow_newRow d

/-- The upserted frame always contains a row matching the key of `d`. -/
theorem exists_match_upsert (frame : Frame) (d : ObsData) :
    ∃ r ∈ (upsertFrame frame d).rows, keyMatch d r = true := by
  by_cases hE : frame.rows.isEmpty
  · refine ⟨newRow d, ?_, keyMatch_newRow d⟩
    simp only [upsertFrame, hE, if_true]
    exact mem_sortRows.mpr (List.mem_singleton.mpr rfl)
  · by_cases hA : frame.rows.any (keyMatch d)
    · obtain ⟨x, hx, hkx⟩ := List.any_eq_true.mp hA
      refine ⟨updateRow d x, ?_, keyMatch_updateRow d x⟩
      simp only [upsertFrame, hE, hA, if_false, if_true, Bool.false_eq_true]
      refine mem_sortRows.mpr (List.mem_map.mpr ⟨x, hx, ?_⟩)
      rw [if_pos hkx]
    · refine ⟨newRow d, ?_, keyMatch_newRow d⟩
      simp only [upsertFrame, hE, hA, if_false, Bool.false_eq_true]
      exact mem_sortRows.mpr (List.mem_append.mpr (Or.inr (List.mem_singleton.mpr rfl)))

/-- The exact-match predicate of `get_historical_data` coincides with the
key test of `add_to_historical`. -/
theorem getFilter_eq_keyMatch (d : ObsData) (r : Row) :
    ((r.country == d.country) && (toDay r.reference_date == toDay d.reference_date))
      = keyMatch d r := by
  simp only [keyMatch]
  exact Bool.and_comm _ _

/-- Master lemma: an exact get of the upserted key returns exactly the
observation of `d` (canonicalized rates), whatever the frame held before. -/
theorem get_historical_data_upsert (frame : Frame) (d : ObsData) :
    get_historical_data (upsertFrame frame d) d.country d.reference_date =
      some ⟨d.reference_date, d.country, canonicalRates d.rates, d.va⟩ := by
  obtain ⟨r0, hr0, hk0⟩ := exists_match_upsert frame d
  have hne : (upsertFrame frame d).rows.isEmpty = false := by
    cases h : (upsertFrame frame d).rows with
    | nil => rw [h] at hr0; cases hr0
    | cons a l => rfl
  have hfe : (upsertFrame frame d).rows.filter (fun r =>
      (r.country == d.country) && (toDay r.reference_date == toDay d.reference_date))
      = (upsertFrame frame d).rows.filter (keyMatch d) :=
    List.filter_congr (fun r _ => getFilter_eq_keyMatch d r)
  unfold get_historical_data
  rw [hne, hfe]
  cases hf : (upsertFrame frame d).rows.filter (keyMatch d) with
  | nil =>
    exfalso
    have : r0 ∈ (upsertFrame frame d).rows.filter (keyMatch d) :=
      List.mem_filter.mpr ⟨hr0, hk0⟩
    rw [hf] at this
    cases this
  | cons r rest =>
    have hrmem : r ∈ (upsertFrame frame d).rows.filter (keyMatch d) := by
      rw [hf]; exact List.mem_cons_self r rest
    obtain ⟨hrr, hrk⟩ := List.mem_filter.mp hrmem
    simp only [Bool.false_eq_true, if_false]
    rw [obsOfRow_of_mem_upsert frame d r hrr hrk]

/-! ## Claim C1: upsert overwrites, exact get returns exactly the new record -/

/-- C1: for a record `d` whose `(reference_date, country)` key already
exists in the store, the upsert replaces every field with `d`'s values —
rate columns and `va` absent from `d` become null — so an exact get of the
key afterwards returns exactly `d`'s observation, with no field merged
from the previously stored record.  (The proof does not even need the
existing-key hypothesis: the same holds on a fresh insert.) -/
theorem upsert_overwrite_exact_get (frame : Frame) (d : ObsData)
    (hex : frame.rows.any (keyMatch d) = true) (h : wellFormedRates d) :
    get_historical_data (upsertFrame frame d) d.country d.reference_date =
      some ⟨d.reference_date, d.country, d.rates, d.va⟩ := by
  have _ := hex
  rw [get_historical_data_upsert frame d, ← h]


/-- C1 witness: overwrite of an existing key; the rebuilt observation
carries no maturity-5 rate and no VA even though the old row had both. -/
theorem upsert_overwrite_exact_get_witness :
    c1frame.rows.any (keyMatch c1data) = true ∧ wellFormedRates c1data ∧
    get_historical_data (upsertFrame c1frame c1data) "FR" ⟨2024, 3, 31⟩ =
      some ⟨⟨2024, 3, 31⟩, "FR", [(1, 35/1000)], none⟩ :=
  ⟨by decide, rfl,
    upsert_overwrite_exact_get c1frame c1data (by decide) rfl⟩

/-! ## Claim C6: load on missing vs corrupt backing file -/

/-- C6 counterexample: `load()` on a backing file that exists but cannot
be parsed does NOT fail with a `StorageReadError`; the exception is caught
and an empty schemaless frame is returned silently. -/
theorem load_corrupt_no_error :
    load_historical BackingFile.corrupt = Except.ok { columns := [], rows := [] } ∧
    load_historical BackingFile.corrupt ≠ Except.error StorageReadError.readError :=
  ⟨rfl, fun h => Except.noConfusion h⟩

/-- C6 amended: `load()` on a nonexistent backing file returns an empty,
valid, query-able store with the expected column schema; `load()` on an
unparsable backing file also returns (an empty, schemaless frame) after
logging — no branch of the load path surfaces a `StorageReadError`. -/
theorem load_missing_empty_schema :
    load_historical BackingFile.missing =
      Except.ok { columns := expectedColumns, rows := [] } ∧
    load_historical BackingFile.corrupt = Except.ok { columns := [], rows := [] } ∧
    (∀ bf : BackingFile, (load_historical bf).isOk = true) ∧
    (∀ (country : String) (m : Nat) (sd ed : Option Date),
      get_time_series { columns := expectedColumns, rows := [] } country m sd ed = []) ∧
    (∀ (country : String) (dt : Date),
      get_historical_data { columns := expectedColumns, rows := [] } country dt = none) := by
  refine ⟨rfl, rfl, ?_, ?_, ?_⟩
  · intro bf; cases bf <;> rfl
  · intro country m sd ed; rfl
  · intro country dt; rfl

/-! ## Claim C7: failed persistence is swallowed, mutation not rolled back -/


/-- C7 counterexample: when persisting after an upsert fails, the caller
observes no `StorageWriteError` — the exception is logged and swallowed. -/
theorem write_failure_no_error :
    (add_to_historical c7frame c7data WriteOutcome.ioError).2 = Except.ok () ∧
    (add_to_historical c7frame c7data WriteOutcome.ioError).2 ≠
      Except.error StorageWriteError.writeError :=
  ⟨rfl, fun h => Except.noConfusion h⟩

/-- C7 amended: when persisting the collection after `upsert(r)` fails, no
`StorageWriteError` reaches the caller (the exception is logged and
swallowed), and the in-memory collection still contains the mutation: it
equals the upserted frame, and an exact get of `r`'s key returns `r`. -/
theorem write_failure_mutation_kept (frame : Frame) (d : ObsData)
    (h : wellFormedRates d) :
    (add_to_historical frame d WriteOutcome.ioError).1 = upsertFrame frame d ∧
    (add_to_historical frame d WriteOutcome.ioError).2 = Except.ok () ∧
    get_historical_data (add_to_historical frame d WriteOutcome.ioError).1
        d.country d.reference_date =
      some ⟨d.reference_date, d.country, d.rates, d.va⟩ :=
  ⟨rfl, rfl, by
    show get_historical_data (upsertFrame frame d) d.country d.reference_date = _
    rw [get_historical_data_upsert frame d, ← h]⟩

/-- C7 amended witness. -/
theorem write_failure_mutation_kept_witness :
    wellFormedRates c7data ∧
    get_historical_data (add_to_historical c7frame c7data WriteOutcome.ioError).1
        "FR" ⟨2024, 4, 30⟩ = some ⟨⟨2024, 4, 30⟩, "FR", [(1, 31/1000)], none⟩ :=
  ⟨rfl, (write_failure_mutation_kept c7frame c7data rfl).2.2⟩


/-! ## Evaluation lemmas for the binary64 model -/

theorem Int_log_two_eq {q : ℚ} {e : Int} (hq : 0 < q)
    (h1 : (2:ℚ) ^ e ≤ q) (h2 : q < (2:ℚ) ^ (e + 1)) : Int.log 2 q = e := by
  have hb : 1 < 2 := by norm_num
  have hle : e ≤ Int.log 2 q := (Int.zpow_le_iff_le_log hb hq).mp h1
  have hlt : Int.log 2 q < e + 1 := (Int.lt_zpow_iff_log_lt hb hq).mp h2
  omega

theorem roundNearestEven_down {x : ℚ} {n : Int} (h1 : (n:ℚ) ≤ x)
    (h2 : x - n < 1/2) : roundNearestEven x = n := by
  have hf : ⌊x⌋ = n := by
    rw [Int.floor_eq_iff]
    exact ⟨by exact_mod_cast h1, by linarith⟩
  unfold roundNearestEven
  rw [hf, if_pos (by linarith)]

theorem roundNearestEven_up {x : ℚ} {n : Int} (h1 : (n:ℚ) ≤ x)
    (h2 : 1/2 < x - n) (h3 : x < n + 1) : roundNearestEven x = n + 1 := by
  have hf : ⌊x⌋ = n := by
    rw [Int.floor_eq_iff]
    exact ⟨by exact_mod_cast h1, by linarith⟩
  unfold roundNearestEven
  rw [hf, if_neg (by linarith), if_pos (by linarith)]

theorem roundDouble_pos {q : ℚ} {e n : Int} (hq : 0 < q)
    (h1 : (2:ℚ) ^ e ≤ q) (h2 : q < (2:ℚ) ^ (e + 1))
    (hn : roundNearestEven (q * (2:ℚ) ^ (52 - e)) = n) :
    roundDouble q = (n : ℚ) * (2:ℚ) ^ (e - 52) := by
  unfold roundDouble
  rw [if_neg hq.ne', if_neg (not_lt.mpr hq.le), abs_of_pos hq,
    Int_log_two_eq hq h1 h2, hn]

theorem roundDouble_neg {q : ℚ} {e n : Int} (hq : q < 0)
    (h1 : (2:ℚ) ^ e ≤ -q) (h2 : -q < (2:ℚ) ^ (e + 1))
    (hn : roundNearestEven (-q * (2:ℚ) ^ (52 - e)) = n) :
    roundDouble q = -((n : ℚ) * (2:ℚ) ^ (e - 52)) := by
  unfold roundDouble
  rw [if_neg hq.ne, if_pos hq, abs_of_neg hq,
    Int_log_two_eq (by linarith) h1 h2, hn]

/-- `0.0310` as a binary64 value (one part in `2^58` above `31/1000`). -/
theorem rd_0310 : roundDouble (310/10000 : ℚ) =
    (8935141660703064 : ℚ) * (2:ℚ) ^ ((-6 : ℤ) - 52) :=
  roundDouble_pos (by norm_num) (by norm_num) (by norm_num)
    (roundNearestEven_down (by norm_num) (by norm_num))

/-- `0.0265` as a binary64 value. -/
theorem rd_0265 : roundDouble (265/10000 : ℚ) =
    (7638104968020361 : ℚ) * (2:ℚ) ^ ((-6 : ℤ) - 52) :=
  roundDouble_pos (by norm_num) (by norm_num) (by norm_num)
    (roundNearestEven_down (by norm_num) (by norm_num))

/-- `0.0200` as a binary64 value. -/
theorem rd_0200 : roundDouble (200/10000 : ℚ) =
    (5764607523034235 : ℚ) * (2:ℚ) ^ ((-6 : ℤ) - 52) :=
  roundDouble_pos (by norm_num) (by norm_num) (by norm_num)
    (by
      have h := roundNearestEven_up (x := (200/10000 : ℚ) * (2:ℚ) ^ ((52:ℤ) - (-6)))
        (n := 5764607523034234) (by norm_num) (by norm_num) (by norm_num)
      rw [h]; norm_num)

/-- `0.0300` as a binary64 value. -/
theorem rd_0300 : roundDouble (300/10000 : ℚ) =
    (8646911284551352 : ℚ) * (2:ℚ) ^ ((-6 : ℤ) - 52) :=
  roundDouble_pos (by norm_num) (by norm_num) (by norm_num)
    (roundNearestEven_down (by norm_num) (by norm_num))

/-- The difference `0.0310f - 0.0265f` is exactly representable. -/
theorem dsub_mom : dsub ((8935141660703064 : ℚ) * (2:ℚ) ^ ((-6 : ℤ) - 52))
    ((7638104968020361 : ℚ) * (2:ℚ) ^ ((-6 : ℤ) - 52)) =
    (5188146770730812 : ℚ) * (2:ℚ) ^ ((-8 : ℤ) - 52) := by
  unfold dsub
  have hd : (8935141660703064 : ℚ) * (2:ℚ) ^ ((-6 : ℤ) - 52) -
      (7638104968020361 : ℚ) * (2:ℚ) ^ ((-6 : ℤ) - 52) =
      (1297036692682703 : ℚ) * (2:ℚ) ^ ((-58 : ℤ)) := by
    norm_num
  rw [hd]
  exact roundDouble_pos (by norm_num) (by norm_num) (by norm_num)
    (roundNearestEven_down (by norm_num) (by norm_num))

/-- Multiplying by `10000` rounds up one ulp: the result is `45 + 2^-47`. -/
theorem dmul_mom : dmul ((5188146770730812 : ℚ) * (2:ℚ) ^ ((-8 : ℤ) - 52)) 10000 =
    45 + (1 : ℚ) / 140737488355328 := by
  unfold dmul
  have h := roundDouble_pos
    (q := (5188146770730812 : ℚ) * (2:ℚ) ^ ((-8 : ℤ) - 52) * 10000)
    (e := 5) (n := 6333186975989761) (by norm_num) (by norm_num) (by norm_num)
    (by
      have h' := roundNearestEven_up
        (x := (5188146770730812 : ℚ) * (2:ℚ) ^ ((-8 : ℤ) - 52) * 10000 *
          (2:ℚ) ^ ((52:ℤ) - 5))
        (n := 6333186975989760) (by norm_num) (by norm_num) (by norm_num)
      rw [h']; norm_num)
  rw [h]
  norm_num

/-- The difference `0.0200f - 0.0300f` is exactly representable. -/
theorem dsub_ytd : dsub ((5764607523034235 : ℚ) * (2:ℚ) ^ ((-6 : ℤ) - 52))
    ((8646911284551352 : ℚ) * (2:ℚ) ^ ((-6 : ℤ) - 52)) =
    -((5764607523034234 : ℚ) * (2:ℚ) ^ ((-7 : ℤ) - 52)) := by
  unfold dsub
  have hd : (5764607523034235 : ℚ) * (2:ℚ) ^ ((-6 : ℤ) - 52) -
      (8646911284551352 : ℚ) * (2:ℚ) ^ ((-6 : ℤ) - 52) =
      -((2882303761517117 : ℚ) * (2:ℚ) ^ ((-58 : ℤ))) := by
    norm_num
  rw [hd]
  exact roundDouble_neg (by norm_num) (by norm_num) (by norm_num)
    (roundNearestEven_down (by norm_num) (by norm_num))

/-- Multiplying by `10000` rounds toward zero by one ulp: `-100 + 2^-46`. -/
theorem dmul_ytd : dmul (-((5764607523034234 : ℚ) * (2:ℚ) ^ ((-7 : ℤ) - 52))) 10000 =
    -100 + (1 : ℚ) / 70368744177664 := by
  unfold dmul
  have h := roundDouble_neg
    (q := -((5764607523034234 : ℚ) * (2:ℚ) ^ ((-7 : ℤ) - 52)) * 10000)
    (e := 6) (n := 7036874417766399) (by norm_num) (by norm_num) (by norm_num)
    (by
      have h' := roundNearestEven_up
        (x := -(-((5764607523034234 : ℚ) * (2:ℚ) ^ ((-7 : ℤ) - 52)) * 10000) *
          (2:ℚ) ^ ((52:ℤ) - 6))
        (n := 7036874417766398) (by norm_num) (by norm_num) (by norm_num)
      rw [h']; norm_num)
  rw [h]
  norm_num

/-! ## Claim C9: the basis-point delta at the spec's test values -/

/-- C9 counterexample: under the binary64 float semantics the source
actually computes in, `calculate_bps_change(0.0265, 0.0310)` is NOT
exactly `+45.0` and `calculate_bps_change(0.0300, 0.0200)` is NOT exactly
`-100.0`: none of the four decimal literals is exactly representable, and
each result lands one ulp away from the claimed value. -/
theorem bps_change_fp_not_exact :
    calculate_bps_change_fp (roundDouble (265/10000)) (roundDouble (310/10000)) ≠ 45 ∧
    calculate_bps_change_fp (roundDouble (300/10000)) (roundDouble (200/10000)) ≠ -100 := by
  constructor
  · rw [calculate_bps_change_fp, rd_0310, rd_0265, dsub_mom, dmul_mom]
    norm_num
  · rw [calculate_bps_change_fp, rd_0200, rd_0300, dsub_ytd, dmul_ytd]
    norm_num

/-- C9 amended: over exact rational arithmetic the formula
`(current - anchor) * 10000` gives exactly `+45` and `-100` at the claimed
inputs; evaluated in binary64 as the code actually does, the results are
`45 + 2^-47` and `-100 + 2^-46` respectively — one ulp away from the
claimed values. -/
theorem bps_change_values :
    calculate_bps_change (265/10000) (310/10000) = 45 ∧
    calculate_bps_change (300/10000) (200/10000) = -100 ∧
    calculate_bps_change_fp (roundDouble (265/10000)) (roundDouble (310/10000)) =
      45 + (1 : ℚ) / 140737488355328 ∧
    calculate_bps_change_fp (roundDouble (300/10000)) (roundDouble (200/10000)) =
      -100 + (1 : ℚ) / 70368744177664 := by
  refine ⟨by norm_num [calculate_bps_change], by norm_num [calculate_bps_change], ?_, ?_⟩
  · rw [calculate_bps_change_fp, rd_0310, rd_0265, dsub_mom, dmul_mom]
  · rw [calculate_bps_change_fp, rd_0200, rd_0300, dsub_ytd, dmul_ytd]

/-! ## Lemmas about the alert scans -/

theorem mem_momScan {changes : List (CKey × ℚ)} {a : Alert} :
    a ∈ momScan changes ↔
      ∃ m c, (CKey.mat m, c) ∈ changes ∧ ALERT_THRESHOLD_MOM ≤ |c| ∧
        a = ⟨Period.mom, m,
          if 0 < c then Direction.hausse else Direction.baisse⟩ := by
  unfold momScan
  rw [List.mem_filterMap]
  constructor
  · rintro ⟨⟨k, c⟩, hmem, hf⟩
    cases k with
    | va => simp at hf
    | mat m =>
      by_cases hth : ALERT_THRESHOLD_MOM ≤ |c|
      · simp only [hth, if_true] at hf
        exact ⟨m, c, hmem, hth, (Option.some.injEq _ _ ▸ hf).symm⟩
      · simp [hth] at hf
  · rintro ⟨m, c, hmem, hth, ha⟩
    exact ⟨(CKey.mat m, c), hmem, by simp [hth, ha]⟩

theorem mem_ytdScan {changes : List (CKey × ℚ)} {a : Alert} :
    a ∈ ytdScan changes ↔
      ∃ m c, (CKey.mat m, c) ∈ changes ∧ ALERT_THRESHOLD_YTD ≤ |c| ∧
        a = ⟨Period.ytd, m,
          if 0 < c then Direction.hausse else Direction.baisse⟩ := by
  unfold ytdScan
  rw [List.mem_filterMap]
  constructor
  · rintro ⟨⟨k, c⟩, hmem, hf⟩
    cases k with
    | va => simp at hf
    | mat m =>
      by_cases hth : ALERT_THRESHOLD_YTD ≤ |c|
      · simp only [hth, if_true] at hf
        exact ⟨m, c, hmem, hth, (Option.some.injEq _ _ ▸ hf).symm⟩
      · simp [hth] at hf
  · rintro ⟨m, c, hmem, hth, ha⟩
    exact ⟨(CKey.mat m, c), hmem, by simp [hth, ha]⟩

theorem eq_of_nodup_keys {l : List (CKey × ℚ)}
    (h : (l.map Prod.fst).Nodup) {k : CKey} {c c' : ℚ}
    (h1 : (k, c) ∈ l) (h2 : (k, c') ∈ l) : c = c' := by
  induction l with
  | nil => cases h1
  | cons x xs ih =>
    rw [List.map_cons, List.nodup_cons] at h
    rcases List.mem_cons.mp h1 with he1 | ht1 <;>
      rcases List.mem_cons.mp h2 with he2 | ht2
    · rw [← he1] at he2
      exact (Prod.mk.injEq _ _ _ _ ▸ he2).2.symm
    · exfalso
      refine h.1 ?_
      rw [← he1]
      exact List.mem_map.mpr ⟨(k, c'), ht2, rfl⟩
    · exfalso
      refine h.1 ?_
      rw [← he2]
      exact List.mem_map.mpr ⟨(k, c), ht1, rfl⟩
    · exact ih h.2 ht1 ht2

/-! ## Claim C4: alert threshold is inclusive (≥), per scan -/

/-- C4: a maturity `m` generates a month-over-month alert exactly when the
absolute value of its month-over-month delta is `≥ ALERT_THRESHOLD_MOM`
(50 bps), and a year-to-date alert exactly when its year-to-date delta's
absolute value is `≥ ALERT_THRESHOLD_YTD` (100 bps); in particular a delta
of exactly 50 bps triggers and 49.9 bps does not. -/
theorem alert_iff_threshold (mom ytd : List (CKey × ℚ)) (m : Nat)
    (hm : (mom.map Prod.fst).Nodup) (hy : (ytd.map Prod.fst).Nodup) :
    (∀ c : ℚ, (CKey.mat m, c) ∈ mom →
      ((∃ dir, (⟨Period.mom, m, dir⟩ : Alert) ∈ detect_alerts mom ytd) ↔
        ALERT_THRESHOLD_MOM ≤ |c|)) ∧
    (∀ c : ℚ, (CKey.mat m, c) ∈ ytd →
      ((∃ dir, (⟨Period.ytd, m, dir⟩ : Alert) ∈ detect_alerts mom ytd) ↔
        ALERT_THRESHOLD_YTD ≤ |c|)) := by
  constructor
  · intro c hc
    constructor
    · rintro ⟨dir, hdir⟩
      rcases List.mem_append.mp hdir with hA | hA
      · obtain ⟨m', c', hmem, hth, ha⟩ := mem_momScan.mp hA
        have hmm : m = m' := congrArg Alert.maturity ha
        subst hmm
        rw [eq_of_nodup_keys hm hc hmem]
        exact hth
      · obtain ⟨m', c', _, _, ha⟩ := mem_ytdScan.mp hA
        exact absurd (congrArg Alert.period ha) (by simp)
    · intro hth
      exact ⟨_, List.mem_append_left _ (mem_momScan.mpr ⟨m, c, hc, hth, rfl⟩)⟩
  · intro c hc
    constructor
    · rintro ⟨dir, hdir⟩
      rcases List.mem_append.mp hdir with hA | hA
      · obtain ⟨m', c', _, _, ha⟩ := mem_momScan.mp hA
        exact absurd (congrArg Alert.period ha) (by simp)
      · obtain ⟨m', c', hmem, hth, ha⟩ := mem_ytdScan.mp hA
        have hmm : m = m' := congrArg Alert.maturity ha
        subst hmm
        rw [eq_of_nodup_keys hy hc hmem]
        exact hth
    · intro hth
      exact ⟨_, List.mem_append_right _ (mem_ytdScan.mpr ⟨m, c, hc, hth, rfl⟩)⟩

/-- C4 witness: with a month-over-month delta of exactly 50 bps maturity 1
alerts, while maturity 5 at 49 bps does not; year-to-date at exactly
100 bps alerts, while -99 bps does not. -/
theorem alert_iff_threshold_witness :
    ((∃ dir, (⟨Period.mom, 1, dir⟩ : Alert) ∈ detect_alerts c4mom c4ytd) ↔
      ALERT_THRESHOLD_MOM ≤ |(50 : ℚ)|) ∧
    ((∃ dir, (⟨Period.mom, 5, dir⟩ : Alert) ∈ detect_alerts c4mom c4ytd) ↔
      ALERT_THRESHOLD_MOM ≤ |(49 : ℚ)|) ∧
    ((∃ dir, (⟨Period.ytd, 1, dir⟩ : Alert) ∈ detect_alerts c4mom c4ytd) ↔
      ALERT_THRESHOLD_YTD ≤ |(100 : ℚ)|) ∧
    ((∃ dir, (⟨Period.ytd, 5, dir⟩ : Alert) ∈ detect_alerts c4mom c4ytd) ↔
      ALERT_THRESHOLD_YTD ≤ |(-99 : ℚ)|) :=
  ⟨(alert_iff_threshold c4mom c4ytd 1 (by decide) (by decide)).1 50
      (List.mem_cons_self _ _),
   (alert_iff_threshold c4mom c4ytd 5 (by decide) (by decide)).1 49
      (by simp [c4mom]),
   (alert_iff_threshold c4mom c4ytd 1 (by decide) (by decide)).2 100
      (List.mem_cons_self _ _),
   (alert_iff_threshold c4mom c4ytd 5 (by decide) (by decide)).2 (-99)
      (by simp [c4ytd])⟩

/-! ## Lemmas for alert ordering -/

theorem pairwise_filterMap_of {α β : Type} {R : α → α → Prop}
    {S : β → β → Prop} (f : α → Option β)
    (H : ∀ a a', R a a' → ∀ b b', f a = some b → f a' = some b' → S b b') :
    ∀ {l : List α}, l.Pairwise R → (l.filterMap f).Pairwise S := by
  intro l
  induction l with
  | nil => intro _; simp
  | cons a rest ih =>
    intro hp
    rw [List.pairwise_cons] at hp
    rw [List.filterMap_cons]
    cases hfa : f a with
    | none => exact ih hp.2
    | some b =>
      rw [List.pairwise_cons]
      refine ⟨?_, ih hp.2⟩
      intro b' hb'
      obtain ⟨a', ha', hfa'⟩ := List.mem_filterMap.mp hb'
      exact H a a' (hp.1 a' ha') b b' hfa hfa'

theorem momScan_erase_va (l : List (CKey × ℚ)) :
    momScan (l.filter (fun kc => decide (kc.1 ≠ CKey.va))) = momScan l := by
  induction l with
  | nil => rfl
  | cons kc rest ih =>
    obtain ⟨k, c⟩ := kc
    cases k with
    | va => simpa [momScan, List.filter_cons] using ih
    | mat m =>
      rw [List.filter_cons]
      simp only [decide_eq_true_eq]
      rw [if_pos (by simp)]
      unfold momScan at ih ⊢
      rw [List.filterMap_cons, List.filterMap_cons]
      cases h : (if ALERT_THRESHOLD_MOM ≤ |c| then
          some (⟨Period.mom, m,
            if 0 < c then Direction.hausse else Direction.baisse⟩ : Alert)
        else none) with
      | none => dsimp only; rw [h]; exact ih
      | some b => dsimp only; rw [h]; exact congrArg (fun t => b :: t) ih

theorem ytdScan_erase_va (l : List (CKey × ℚ)) :
    ytdScan (l.filter (fun kc => decide (kc.1 ≠ CKey.va))) = ytdScan l := by
  induction l with
  | nil => rfl
  | cons kc rest ih =>
    obtain ⟨k, c⟩ := kc
    cases k with
    | va => simpa [ytdScan, List.filter_cons] using ih
    | mat m =>
      rw [List.filter_cons]
      simp only [decide_eq_true_eq]
      rw [if_pos (by simp)]
      unfold ytdScan at ih ⊢
      rw [List.filterMap_cons, List.filterMap_cons]
      cases h : (if ALERT_THRESHOLD_YTD ≤ |c| then
          some (⟨Period.ytd, m,
            if 0 < c then Direction.hausse else Direction.baisse⟩ : Alert)
        else none) with
      | none => dsimp only; rw [h]; exact ih
      | some b => dsimp only; rw [h]; exact congrArg (fun t => b :: t) ih

theorem momScan_pairwise {l : List (CKey × ℚ)} (h : l.Pairwise keyLt) :
    (momScan l).Pairwise (fun a b => a.maturity < b.maturity) := by
  refine pairwise_filterMap_of _ ?_ h
  rintro ⟨k, c⟩ ⟨k', c'⟩ hR b b' hfb hfb'
  cases k with
  | va => simp at hfb
  | mat ma =>
    cases k' with
    | va => simp at hfb'
    | mat mb =>
      dsimp only at hfb hfb'
      by_cases h1 : ALERT_THRESHOLD_MOM ≤ |c|
      · by_cases h2 : ALERT_THRESHOLD_MOM ≤ |c'|
        · simp only [h1, h2, if_true] at hfb hfb'
          cases hfb
          cases hfb'
          exact hR
        · simp [h2] at hfb'
      · simp [h1] at hfb

theorem ytdScan_pairwise {l : List (CKey × ℚ)} (h : l.Pairwise keyLt) :
    (ytdScan l).Pairwise (fun a b => a.maturity < b.maturity) := by
  refine pairwise_filterMap_of _ ?_ h
  rintro ⟨k, c⟩ ⟨k', c'⟩ hR b b' hfb hfb'
  cases k with
  | va => simp at hfb
  | mat ma =>
    cases k' with
    | va => simp at hfb'
    | mat mb =>
      dsimp only at hfb hfb'
      by_cases h1 : ALERT_THRESHOLD_YTD ≤ |c|
      · by_cases h2 : ALERT_THRESHOLD_YTD ≤ |c'|
        · simp only [h1, h2, if_true] at hfb hfb'
          cases hfb
          cases hfb'
          exact hR
        · simp [h2] at hfb'
      · simp [h1] at hfb

/-! ## Claim C5: alert list ordering, no dedup, `va` never alerts -/

/-- C5: the alert list is the month-over-month scan followed by the
year-to-date scan (concatenated with no deduplication — the length is the
sum of both scans); every alert of the first block is a month-over-month
alert and every alert of the second a year-to-date alert; when the change
dicts carry their maturities in ascending order (as `create_summary_dict`
builds them), each block is in strictly ascending maturity order; and
erasing `va` entries from either dict leaves the alert list unchanged —
the `va` key never generates an alert in either scan. -/
theorem alerts_ordered_mom_then_ytd (mom ytd : List (CKey × ℚ))
    (hm : mom.Pairwise keyLt) (hy : ytd.Pairwise keyLt) :
    detect_alerts mom ytd = momScan mom ++ ytdScan ytd ∧
    (∀ a ∈ momScan mom, a.period = Period.mom) ∧
    (∀ a ∈ ytdScan ytd, a.period = Period.ytd) ∧
    (momScan mom).Pairwise (fun a b => a.maturity < b.maturity) ∧
    (ytdScan ytd).Pairwise (fun a b => a.maturity < b.maturity) ∧
    (detect_alerts mom ytd).length = (momScan mom).length + (ytdScan ytd).length ∧
    detect_alerts (mom.filter (fun kc => decide (kc.1 ≠ CKey.va)))
        (ytd.filter (fun kc => decide (kc.1 ≠ CKey.va))) =
      detect_alerts mom ytd := by
  refine ⟨rfl, ?_, ?_, momScan_pairwise hm, ytdScan_pairwise hy,
    List.length_append _ _, ?_⟩
  · intro a ha
    obtain ⟨m, c, _, _, ha'⟩ := mem_momScan.mp ha
    rw [ha']
  · intro a ha
    obtain ⟨m, c, _, _, ha'⟩ := mem_ytdScan.mp ha
    rw [ha']
  · unfold detect_alerts
    rw [momScan_erase_va, ytdScan_erase_va]

/-- C5 witness: concrete change dicts with ascending maturities and a
`va` entry. -/
theorem alerts_ordered_mom_then_ytd_witness :
    (momScan c5mom).Pairwise (fun a b => a.maturity < b.maturity) ∧
    detect_alerts (c5mom.filter (fun kc => decide (kc.1 ≠ CKey.va)))
        (c5ytd.filter (fun kc => decide (kc.1 ≠ CKey.va))) =
      detect_alerts c5mom c5ytd :=
  ⟨(alerts_ordered_mom_then_ytd c5mom c5ytd (by decide) (by decide)).2.2.2.1,
   (alerts_ordered_mom_then_ytd c5mom c5ytd (by decide) (by decide)).2.2.2.2.2.2⟩

/-! ## Claim C8: the store is always sorted by reference date -/

theorem upsert_rows_sorted (frame : Frame) (d : ObsData) :
    (upsertFrame frame d).rows.Pairwise rowLe :=
  List.sorted_insertionSort rowLe _

/-- C8: starting from a valid (date-sorted) store, any sequence of upserts
leaves the rows sorted: iterating the store yields non-decreasing
reference dates. -/
theorem upserts_preserve_ordering (frame : Frame) (ds : List ObsData)
    (hf : frame.rows.Pairwise rowLe) :
    (ds.foldl upsertFrame frame).rows.Pairwise rowLe := by
  induction ds generalizing frame with
  | nil => exact hf
  | cons d rest ih => exact ih (upsertFrame frame d) (upsert_rows_sorted frame d)

/-- C8 witness: two upserts arriving out of date order on an empty store. -/
theorem upserts_preserve_ordering_witness :
    (([c8d1, c8d2].foldl upsertFrame c8frame)).rows.Pairwise rowLe :=
  upserts_preserve_ordering c8frame [c8d1, c8d2] List.Pairwise.nil

/-! ## Lemmas about the closest-candidate selection -/

theorem firstMinBy_isSome {α : Type} (key : α → Int) (x : α) (xs : List α) :
    (firstMinBy key (x :: xs)).isSome = true := by
  induction xs generalizing x with
  | nil => rfl
  | cons y ys _ =>
    rw [firstMinBy]
    cases firstMinBy key (y :: ys) <;> rfl

theorem firstMinBy_spec {α : Type} (key : α → Int) :
    ∀ {l : List α} {res : α}, firstMinBy key l = some res →
      res ∈ l ∧ (∀ x ∈ l, key res ≤ key x) ∧
      ∃ pre post, l = pre ++ res :: post ∧ ∀ x ∈ pre, key res < key x := by
  intro l
  induction l with
  | nil => intro res h; cases h
  | cons r rs ih =>
    intro res h
    cases rs with
    | nil =>
      rw [firstMinBy] at h
      cases h
      exact ⟨List.mem_singleton.mpr rfl, by simp,
        ⟨[], [], rfl, by simp⟩⟩
    | cons s rest =>
      rw [firstMinBy] at h
      cases hb : firstMinBy key (s :: rest) with
      | none =>
        exfalso
        have := firstMinBy_isSome key s rest
        rw [hb] at this
        cases this
      | some b =>
        rw [hb] at h
        dsimp only at h
        obtain ⟨hbmem, hbmin, pre, post, hsplit, hpre⟩ := ih hb
        by_cases hlt : key b < key r
        · rw [if_pos hlt] at h
          cases h
          refine ⟨List.mem_cons_of_mem r hbmem, ?_, r :: pre, post, ?_, ?_⟩
          · intro x hx
            rcases List.mem_cons.mp hx with hx | hx
            · exact hx ▸ hlt.le
            · exact hbmin x hx
          · rw [List.cons_append, hsplit]
          · intro x hx
            rcases List.mem_cons.mp hx with hx | hx
            · exact hx ▸ hlt
            · exact hpre x hx
        · rw [if_neg hlt] at h
          cases h
          push_neg at hlt
          refine ⟨List.mem_cons_self _ _, ?_, [], s :: rest, rfl, by simp⟩
          intro x hx
          rcases List.mem_cons.mp hx with hx | hx
          · exact hx ▸ le_refl _
          · exact le_trans hlt (hbmin x hx)

theorem anchorFilter_eq (frame : Frame) (country : String) (target tol : Int) :
    frame.rows.filter (fun r => (r.country == country)
      && decide (target - tol ≤ toDay r.reference_date)
      && decide (toDay r.reference_date ≤ target + tol)) =
    anchorWindow frame country target tol := by
  unfold anchorWindow
  refine List.filter_congr ?_
  intro r _
  cases hc : (r.country == country) with
  | false => simp
  | true =>
    simp only [Bool.true_and]
    have hand : (decide (target - tol ≤ toDay r.reference_date) &&
        decide (toDay r.reference_date ≤ target + tol)) =
        decide (target - tol ≤ toDay r.reference_date ∧
          toDay r.reference_date ≤ target + tol) := by simp
    rw [hand, decide_eq_decide, abs_le]
    omega

/-- Full behaviour of one anchor lookup: it fails exactly when the
tolerance window holds no row of the country, and otherwise returns the
windowed row with the smallest absolute day-distance to the anchor, ties
broken by the earliest date. -/
theorem anchorLookup_spec (frame : Frame) (country : String) (target tol : Int)
    (hs : frame.rows.Pairwise rowLe) :
    (anchorLookup frame country target tol = none ↔
      anchorWindow frame country target tol = []) ∧
    ∀ ob, anchorLookup frame country target tol = some ob →
      ∃ r, r ∈ anchorWindow frame country target tol ∧ ob = obsOfRow r ∧
        (∀ r' ∈ anchorWindow frame country target tol,
          |toDay r.reference_date - target| ≤ |toDay r'.reference_date - target|) ∧
        (∀ r' ∈ anchorWindow frame country target tol,
          |toDay r'.reference_date - target| = |toDay r.reference_date - target| →
          toDay r.reference_date ≤ toDay r'.reference_date) := by
  unfold anchorLookup
  rw [anchorFilter_eq]
  by_cases hE : frame.rows.isEmpty
  · rw [if_pos hE]
    have hrows : frame.rows = [] := by
      cases hl : frame.rows with
      | nil => rfl
      | cons x xs => rw [hl] at hE; cases hE
    refine ⟨⟨fun _ => ?_, fun _ => rfl⟩, fun ob hob => absurd hob (by simp)⟩
    unfold anchorWindow
    rw [hrows]
    rfl
  · rw [if_neg hE]
    cases hfm : firstMinBy (fun r => |toDay r.reference_date - target|)
        (anchorWindow frame country target tol) with
    | none =>
      refine ⟨⟨fun _ => ?_, fun _ => rfl⟩, fun ob hob => absurd hob (by simp)⟩
      cases hw : anchorWindow frame country target tol with
      | nil => rfl
      | cons x xs =>
        exfalso
        have hsome := firstMinBy_isSome
          (fun r => |toDay r.reference_date - target|) x xs
        rw [← hw, hfm] at hsome
        cases hsome
    | some r =>
      obtain ⟨hmem, hmin, pre, post, hsplit, hpre⟩ := firstMinBy_spec _ hfm
      refine ⟨⟨fun h => absurd h (by simp), fun hw => ?_⟩, fun ob hob => ?_⟩
      · rw [hw] at hfm
        cases hfm
      · have hob' : ob = obsOfRow r := (Option.some.injEq _ _ ▸ hob).symm
        refine ⟨r, hmem, hob', hmin, ?_⟩
        intro r' hr' heq
        have hsorted : (anchorWindow frame country target tol).Pairwise rowLe :=
          hs.filter _
        rw [hsplit] at hsorted hr'
        rcases List.mem_append.mp hr' with hx | hx
        · exact absurd heq.symm (ne_of_lt (hpre r' hx))
        · rcases List.mem_cons.mp hx with hx | hx
          · rw [hx]
          · exact (List.pairwise_cons.mp
                (List.pairwise_append.mp hsorted).2.1).1 r' hx

/-! ## Claim C3: anchor lookups consider exactly the tolerance window -/

/-- C3: the month-over-month lookup considers exactly the stored rows of
the country within ±5 days of `previous_month_end(ref_date)` (±10 days of
`year_start(ref_date)` for the year-to-date lookup), returns `none` when
the window is empty, and otherwise returns the windowed record with the
smallest absolute day-distance to the anchor, ties broken by the earliest
date (the store being date-sorted, its ordering invariant). -/
theorem anchor_lookup_window_closest (frame : Frame) (current_date : Date)
    (country : String) (hs : frame.rows.Pairwise rowLe) :
    ((get_previous_month_data frame current_date country = none ↔
        anchorWindow frame country
          (toDay (get_previous_month_date current_date)) 5 = []) ∧
      ∀ ob, get_previous_month_data frame current_date country = some ob →
        ∃ r, r ∈ anchorWindow frame country
            (toDay (get_previous_month_date current_date)) 5 ∧
          ob = obsOfRow r ∧
          (∀ r' ∈ anchorWindow frame country
              (toDay (get_previous_month_date current_date)) 5,
            |toDay r.reference_date - toDay (get_previous_month_date current_date)| ≤
              |toDay r'.reference_date - toDay (get_previous_month_date current_date)|) ∧
          (∀ r' ∈ anchorWindow frame country
              (toDay (get_previous_month_date current_date)) 5,
            |toDay r'.reference_date - toDay (get_previous_month_date current_date)| =
              |toDay r.reference_date - toDay (get_previous_month_date current_date)| →
            toDay r.reference_date ≤ toDay r'.reference_date)) ∧
    ((get_ytd_data frame current_date country = none ↔
        anchorWindow frame country
          (toDay (get_year_start_date current_date)) 10 = []) ∧
      ∀ ob, get_ytd_data frame current_date country = some ob →
        ∃ r, r ∈ anchorWindow frame country
            (toDay (get_year_start_date current_date)) 10 ∧
          ob = obsOfRow r ∧
          (∀ r' ∈ anchorWindow frame country
              (toDay (get_year_start_date current_date)) 10,
            |toDay r.reference_date - toDay (get_year_start_date current_date)| ≤
              |toDay r'.reference_date - toDay (get_year_start_date current_date)|) ∧
          (∀ r' ∈ anchorWindow frame country
              (toDay (get_year_start_date current_date)) 10,
            |toDay r'.reference_date - toDay (get_year_start_date current_date)| =
              |toDay r.reference_date - toDay (get_year_start_date current_date)| →
            toDay r.reference_date ≤ toDay r'.reference_date)) :=
  ⟨anchorLookup_spec frame country
      (toDay (get_previous_month_date current_date)) 5 hs,
    anchorLookup_spec frame country
      (toDay (get_year_start_date current_date)) 10 hs⟩

/-- C3 witness: rows at T-7, T-3, T+3, T+6 around the month-end anchor
T = 2024-02-29 of reference date 2024-03-15.  T-7 and T+6 fall outside the
±5-day window; T-3 and T+3 tie on distance and the earlier date (T-3,
2024-02-26) is selected. -/
theorem anchor_lookup_window_closest_witness :
    (get_previous_month_data demoFrame ⟨2024, 3, 15⟩ "FR" = none ↔
      anchorWindow demoFrame "FR"
        (toDay (get_previous_month_date ⟨2024, 3, 15⟩)) 5 = []) ∧
    ∃ r, r ∈ anchorWindow demoFrame "FR"
        (toDay (get_previous_month_date ⟨2024, 3, 15⟩)) 5 ∧
      obsOfRow demoRow2 = obsOfRow r ∧
      (∀ r' ∈ anchorWindow demoFrame "FR"
          (toDay (get_previous_month_date ⟨2024, 3, 15⟩)) 5,
        |toDay r.reference_date - toDay (get_previous_month_date ⟨2024, 3, 15⟩)| ≤
          |toDay r'.reference_date - toDay (get_previous_month_date ⟨2024, 3, 15⟩)|) ∧
      (∀ r' ∈ anchorWindow demoFrame "FR"
          (toDay (get_previous_month_date ⟨2024, 3, 15⟩)) 5,
        |toDay r'.reference_date - toDay (get_previous_month_date ⟨2024, 3, 15⟩)| =
          |toDay r.reference_date - toDay (get_previous_month_date ⟨2024, 3, 15⟩)| →
        toDay r.reference_date ≤ toDay r'.reference_date) :=
  ⟨(anchor_lookup_window_closest demoFrame ⟨2024, 3, 15⟩ "FR" (by decide)).1.1,
    (anchor_lookup_window_closest demoFrame ⟨2024, 3, 15⟩ "FR" (by decide)).1.2
      (obsOfRow demoRow2) rfl⟩

/-! ## Lemmas about the time-series query -/

theorem mem_applyStartFilter {sd : Option Date} {df : List Row} {r : Row}
    (h : r ∈ applyStartFilter sd df) : r ∈ df := by
  cases sd with
  | none => exact h
  | some s => exact (List.mem_filter.mp h).1

theorem mem_applyEndFilter {ed : Option Date} {df : List Row} {r : Row}
    (h : r ∈ applyEndFilter ed df) : r ∈ df := by
  cases ed with
  | none => exact h
  | some e => exact (List.mem_filter.mp h).1

theorem length_applyStartFilter (sd : Option Date) (df : List Row) :
    (applyStartFilter sd df).length ≤ df.length := by
  cases sd with
  | none => exact le_refl _
  | some s => exact List.length_filter_le _ _

theorem length_applyEndFilter (ed : Option Date) (df : List Row) :
    (applyEndFilter ed df).length ≤ df.length := by
  cases ed with
  | none => exact le_refl _
  | some e => exact List.length_filter_le _ _

/-! ## Claim C10: the time-series query is total, ordered and skips nulls -/

/-- C10: for every store state, country, maturity (including one whose
rate column does not exist) and optional date bounds, `get_time_series`
returns a finite date-ordered list of `(date, rate)` pairs: an empty store
or a missing rate column yields `[]`, every returned pair comes from a
stored row of the queried country whose rate cell at that maturity is
non-null (null rates are skipped), and the result is no longer than the
store. -/
theorem get_time_series_spec (frame : Frame) (country : String)
    (maturity : Nat) (sd ed : Option Date) :
    (get_time_series frame country maturity sd ed).Pairwise pairLe ∧
    (frame.rows = [] → get_time_series frame country maturity sd ed = []) ∧
    (rateCol maturity ∉ frame.columns →
      get_time_series frame country maturity sd ed = []) ∧
    (∀ p ∈ get_time_series frame country maturity sd ed,
      ∃ r, r ∈ frame.rows ∧ r.country = country ∧
        lookupCell r.rates maturity = some p.2 ∧ p.1 = r.reference_date) ∧
    (get_time_series frame country maturity sd ed).length ≤
      frame.rows.length := by
  by_cases hE : frame.rows.isEmpty
  · have hts : get_time_series frame country maturity sd ed = [] := by
      unfold get_time_series
      rw [if_pos hE]
    rw [hts]
    exact ⟨List.Pairwise.nil, fun _ => rfl, fun _ => rfl,
      fun p hp => absurd hp (by simp), by simp⟩
  · by_cases hC : frame.columns.contains (rateCol maturity)
    · have hts : get_time_series frame country maturity sd ed =
          List.insertionSort pairLe
            ((applyEndFilter ed (applyStartFilter sd
                (frame.rows.filter (fun r => r.country == country)))).filterMap
              (fun r => (lookupCell r.rates maturity).map
                (fun v => (r.reference_date, v)))) := by
        unfold get_time_series
        rw [if_neg hE, if_neg (by rw [hC]; simp)]
      refine ⟨?_, ?_, ?_, ?_, ?_⟩
      · rw [hts]
        exact List.sorted_insertionSort _ _
      · intro h
        rw [h] at hE
        exact absurd rfl hE
      · intro h
        rw [(by simpa using h : frame.columns.contains (rateCol maturity) = false)]
          at hC
        cases hC
      · intro p hp
        rw [hts, List.mem_insertionSort] at hp
        obtain ⟨r, hr2, hmap⟩ := List.mem_filterMap.mp hp
        obtain ⟨v, hv, hpv⟩ := Option.map_eq_some'.mp hmap
        have hr0 := mem_applyStartFilter (mem_applyEndFilter hr2)
        obtain ⟨hrr, hrc⟩ := List.mem_filter.mp hr0
        refine ⟨r, hrr, by simpa using hrc, ?_, ?_⟩
        · rw [hv, ← hpv]
        · rw [← hpv]
      · rw [hts, List.length_insertionSort]
        calc ((applyEndFilter ed (applyStartFilter sd
            (frame.rows.filter (fun r => r.country == country)))).filterMap
              (fun r => (lookupCell r.rates maturity).map
                (fun v => (r.reference_date, v)))).length
            ≤ (applyEndFilter ed (applyStartFilter sd
                (frame.rows.filter (fun r => r.country == country)))).length :=
              List.length_filterMap_le _ _
          _ ≤ (applyStartFilter sd
                (frame.rows.filter (fun r => r.country == country))).length :=
              length_applyEndFilter _ _
          _ ≤ (frame.rows.filter (fun r => r.country == country)).length :=
              length_applyStartFilter _ _
          _ ≤ frame.rows.length := List.length_filter_le _ _
    · have hts : get_time_series frame country maturity sd ed = [] := by
        unfold get_time_series
        rw [if_neg hE, if_pos (by rw [(by simpa using hC :
          frame.columns.contains (rateCol maturity) = false)]; rfl)]
      rw [hts]
      exact ⟨List.Pairwise.nil, fun _ => rfl, fun _ => rfl,
        fun p hp => absurd hp (by simp), by simp⟩

/-- C10 witness: a missing `rate_7y` column yields the empty series; an
existing column yields a date-sorted series. -/
theorem get_time_series_spec_witness :
    get_time_series demoFrame "FR" 7 none none = [] ∧
    (get_time_series demoFrame "FR" 1 none none).Pairwise pairLe :=
  ⟨(get_time_series_spec demoFrame "FR" 7 none none).2.2.1 (by decide),
    (get_time_series_spec demoFrame "FR" 1 none none).1⟩

/-! ## Lemmas about the VA delta in `create_summary_dict` -/

theorem va_not_mem_ratesDeltas (rates prev : List (Nat × ℚ)) (x : ℚ) :
    (CKey.va, x) ∉ ratesDeltas rates prev := by
  intro h
  obtain ⟨p, _, hf⟩ := List.mem_filterMap.mp h
  obtain ⟨pv, _, hpair⟩ := Option.map_eq_some'.mp hf
  exact CKey.noConfusion (congrArg Prod.fst hpair)

theorem changesBlock_none_iff (rates : List (Nat × ℚ)) (va : Option ℚ)
    (anchor_rates : Option (List (Nat × ℚ))) (anchor_va : Option ℚ) :
    changesBlock rates va anchor_rates anchor_va = none ↔
      (va = none ∧ ∃ pr pv, anchor_rates = some pr ∧ pr ≠ [] ∧
        anchor_va = some pv) := by
  unfold changesBlock
  cases anchor_rates with
  | none => simp
  | some pr =>
    dsimp only
    by_cases hpr : pr.isEmpty
    · rw [if_pos hpr]
      have hnil : pr = [] := by
        cases pr with
        | nil => rfl
        | cons a l => cases hpr
      simp [hnil]
    · rw [if_neg hpr]
      have hne : pr ≠ [] := by
        intro h
        rw [h] at hpr
        exact hpr rfl
      cases anchor_va with
      | none => simp
      | some pva =>
        cases va with
        | none => simp [hne]
        | some v => simp

theorem changesBlock_va_mem (rates : List (Nat × ℚ)) (va : Option ℚ)
    (anchor_rates : Option (List (Nat × ℚ))) (anchor_va : Option ℚ)
    (cs : List (CKey × ℚ))
    (h : changesBlock rates va anchor_rates anchor_va = some cs) (x : ℚ) :
    ((CKey.va, x) ∈ cs ↔ ∃ pr pv v, anchor_rates = some pr ∧ pr ≠ [] ∧
      anchor_va = some pv ∧ va = some v ∧ x = calculate_bps_change pv v) := by
  unfold changesBlock at h
  cases anchor_rates with
  | none =>
    cases h
    simp
  | some pr =>
    dsimp only at h
    by_cases hpr : pr.isEmpty
    · rw [if_pos hpr] at h
      cases h
      have hnil : pr = [] := by
        cases pr with
        | nil => rfl
        | cons a l => cases hpr
      simp [hnil]
    · rw [if_neg hpr] at h
      have hne : pr ≠ [] := by
        intro hh
        rw [hh] at hpr
        exact hpr rfl
      cases anchor_va with
      | none =>
        cases h
        constructor
        · intro hm
          exact absurd hm (va_not_mem_ratesDeltas rates pr x)
        · rintro ⟨pr', pv', v', _, _, hpv', _, _⟩
          cases hpv'
      | some pva =>
        cases va with
        | none => cases h
        | some v =>
          cases h
          constructor
          · intro hm
            rcases List.mem_append.mp hm with hm | hm
            · exact absurd hm (va_not_mem_ratesDeltas rates pr x)
            · rw [List.mem_singleton] at hm
              have hx : x = calculate_bps_change pva v :=
                congrArg Prod.snd hm
              exact ⟨pr, pva, v, rfl, hne, rfl, rfl, hx⟩
          · rintro ⟨pr', pv', v', hpr', _, hpv', hv', hx⟩
            cases hpr'
            cases hpv'
            cases hv'
            exact List.mem_append_right _
              (List.mem_singleton.mpr (by rw [hx]))

theorem create_summary_none_iff (rd : Date) (cty : String)
    (rates : List (Nat × ℚ)) (va : Option ℚ)
    (prates yrates : Option (List (Nat × ℚ))) (pva yva : Option ℚ) :
    create_summary_dict rd cty rates va prates pva yrates yva = none ↔
      (va = none ∧ ((∃ pr pv, prates = some pr ∧ pr ≠ [] ∧ pva = some pv) ∨
        (∃ pr pv, yrates = some pr ∧ pr ≠ [] ∧ yva = some pv))) := by
  unfold create_summary_dict
  cases hm : changesBlock rates va prates pva with
  | none =>
    obtain ⟨hva, hdem⟩ := (changesBlock_none_iff rates va prates pva).mp hm
    simp only [Option.bind_eq_bind, Option.none_bind]
    exact ⟨fun _ => ⟨hva, Or.inl hdem⟩, fun _ => trivial⟩
  | some cm =>
    cases hy : changesBlock rates va yrates yva with
    | none =>
      obtain ⟨hva, hdem⟩ := (changesBlock_none_iff rates va yrates yva).mp hy
      simp only [Option.bind_eq_bind, Option.some_bind, Option.none_bind]
      exact ⟨fun _ => ⟨hva, Or.inr hdem⟩, fun _ => trivial⟩
    | some cy =>
      simp only [Option.bind_eq_bind, Option.some_bind]
      constructor
      · intro hh
        cases hh
      · rintro ⟨hva, hdem | hdem⟩
        · rw [(changesBlock_none_iff rates va prates pva).mpr ⟨hva, hdem⟩] at hm
          cases hm
        · rw [(changesBlock_none_iff rates va yrates yva).mpr ⟨hva, hdem⟩] at hy
          cases hy

theorem create_summary_some_va (rd : Date) (cty : String)
    (rates : List (Nat × ℚ)) (va : Option ℚ)
    (prates yrates : Option (List (Nat × ℚ))) (pva yva : Option ℚ)
    (s : Summary)
    (h : create_summary_dict rd cty rates va prates pva yrates yva = some s) :
    (∀ x : ℚ, ((CKey.va, x) ∈ s.changes_mom ↔
      ∃ pr pv v, prates = some pr ∧ pr ≠ [] ∧ pva = some pv ∧ va = some v ∧
        x = calculate_bps_change pv v)) ∧
    (∀ x : ℚ, ((CKey.va, x) ∈ s.changes_ytd ↔
      ∃ pr pv v, yrates = some pr ∧ pr ≠ [] ∧ yva = some pv ∧ va = some v ∧
        x = calculate_bps_change pv v)) := by
  unfold create_summary_dict at h
  cases hm : changesBlock rates va prates pva with
  | none =>
    rw [hm] at h
    cases h
  | some cm =>
    rw [hm] at h
    cases hy : changesBlock rates va yrates yva with
    | none =>
      rw [hy] at h
      cases h
    | some cy =>
      rw [hy] at h
      simp only [Option.bind_eq_bind, Option.some_bind, Option.pure_def,
        Option.some.injEq] at h
      subst h
      exact ⟨changesBlock_va_mem rates va prates pva cm hm,
        changesBlock_va_mem rates va yrates yva cy hy⟩

/-! ## Claim C2: the `va` delta entry and its failure mode -/

/-- C2 counterexample: the month-over-month anchor resolves with a VA
value while the current observation has none (`processor.process()`
always sets `va = None`); rather than returning a result with no `va`
entry, `analyze` raises (`None - previous_va` is a `TypeError`, modelled
as `none`). -/
theorem analyze_fails_on_missing_current_va :
    analyze c2frame c2current = none ∧
    c2current.va = none ∧
    (get_previous_month_data c2frame c2current.reference_date
        c2current.country).bind (fun p => p.va) = some (5/1000) :=
  ⟨rfl, rfl, rfl⟩

/-- C2 amended: the delta mapping of `create_summary_dict` contains a
`va` entry exactly when the anchor side was resolved with a nonempty
rates dict, the anchor VA is present and the current VA is present — the
entry then equals `(current_va - anchor_va) * 10000`; when the anchor VA
is absent or the anchor rates dict is empty or unresolved there is no
`va` entry; and the computation fails (`TypeError`, modelled as `none`)
exactly when the current VA is absent while some resolved anchor has a
nonempty rates dict and a present VA. -/
theorem va_delta_entry_conditions (rd : Date) (cty : String)
    (rates : List (Nat × ℚ)) (va : Option ℚ)
    (prates yrates : Option (List (Nat × ℚ))) (pva yva : Option ℚ) :
    (create_summary_dict rd cty rates va prates pva yrates yva = none ↔
      (va = none ∧ ((∃ pr pv, prates = some pr ∧ pr ≠ [] ∧ pva = some pv) ∨
        (∃ pr pv, yrates = some pr ∧ pr ≠ [] ∧ yva = some pv)))) ∧
    ∀ s, create_summary_dict rd cty rates va prates pva yrates yva = some s →
      (∀ x : ℚ, ((CKey.va, x) ∈ s.changes_mom ↔
        ∃ pr pv v, prates = some pr ∧ pr ≠ [] ∧ pva = some pv ∧
          va = some v ∧ x = calculate_bps_change pv v)) ∧
      (∀ x : ℚ, ((CKey.va, x) ∈ s.changes_ytd ↔
        ∃ pr pv v, yrates = some pr ∧ pr ≠ [] ∧ yva = some pv ∧
          va = some v ∧ x = calculate_bps_change pv v)) :=
  ⟨create_summary_none_iff rd cty rates va prates yrates pva yva,
    fun s h => create_summary_some_va rd cty rates va prates yrates pva yva s h⟩

/-- C2 amended witness: both sides carry a VA (and the anchor rates dict
is nonempty), so the summary exists and its `changes_mom` contains the
`va` entry `(0.006 - 0.005) * 10000`. -/
theorem va_delta_entry_conditions_witness :
    create_summary_dict ⟨2024, 3, 31⟩ "FR" [(1, 3/100)] (some (6/1000))
        (some [(1, 2/100)]) (some (5/1000)) none none = some c2s ∧
    (CKey.va, calculate_bps_change (5/1000) (6/1000)) ∈ c2s.changes_mom :=
  ⟨rfl,
    (((va_delta_entry_conditions ⟨2024, 3, 31⟩ "FR" [(1, 3/100)]
        (some (6/1000)) (some [(1, 2/100)]) none (some (5/1000)) none).2
        c2s rfl).1 (calculate_bps_change (5/1000) (6/1000))).mpr
      ⟨[(1, 2/100)], 5/1000, 6/1000, rfl, by simp, rfl, rfl, rfl⟩⟩
